import Mathlib

/-!
Verification development for the TramTram bot (src/main.py).

A shallow embedding of the state-manipulating and pure parts of
`src/main.py`, followed by theorems settling the specification claims.

Conventions of the embedding:
* Python dicts coming from JSON are modelled as structures whose possibly
  missing fields are `Option`s; `dict.get(k, d)` becomes `Option.getD`.
* Unix timestamps and arrival offsets are modelled as `Int` (the code uses
  Python ints from JSON and `time.time()`; only comparisons, additions and
  floor divisions occur, which `Int` with `Int.fdiv` renders faithfully —
  Python `//` is floor division).
* Network calls and Telegram API calls are external effects; each call site
  receives its response through an explicit oracle argument (a function from
  the request's identifying data to an abstract outcome).  Message *text*
  handed to `edit_message_text` never influences the control flow of the
  reconciler (only the externally decided outcome does), so the renderers
  `format_trip` / `format_stop` are not part of the reconciliation model.
* Python `set` accumulation loops are modelled as `Finset` values.
-/

namespace TramTram

/-- Constant `MAX_ARRIVALS = 3` (main.py line 76). -/
def MAX_ARRIVALS : Nat := 3

/-- Constant `STOP_TTL_SECONDS = 15 * 60` (main.py line 77). -/
def STOP_TTL_SECONDS : Int := 15 * 60

/-! ## Python string primitives

`String.splitOn`, `String.toUpper` etc. from the Lean library do not reduce
inside the kernel, so the Python string operations used by the source are
translated here directly over the character list `String.data`.  Each is a
faithful rendering of the corresponding CPython behaviour on the inputs the
program handles. -/

/-- Helper for `pySplit`: accumulate the current field (reversed) while
scanning the characters. -/
def pySplitAux (sep : Char) : List Char → List Char → List (List Char)
  | [], acc => [acc.reverse]
  | c :: cs, acc =>
      if c = sep then acc.reverse :: pySplitAux sep cs []
      else pySplitAux sep cs (c :: acc)

/-- Python `s.split(sep)` for a one-character separator: fields between
occurrences of `sep`, empty fields preserved, `"".split(":") = [""]`. -/
def pySplit (sep : Char) (s : String) : List String :=
  (pySplitAux sep s.data []).map String.mk

/-- Python `s.upper()` (ASCII case mapping suffices for the route codes the
program handles). -/
def pyUpper (s : String) : String := String.mk (s.data.map Char.toUpper)

/-- Python `s.lower()`. -/
def pyLower (s : String) : String := String.mk (s.data.map Char.toLower)

/-- Python `s.endswith(post)`. -/
def pyEndsWith (s post : String) : Bool := post.data.isSuffixOf s.data

/-- Python `s[:-n]` for `n ≥ 1`: all characters except the last `n`
(the empty string when `n ≥ len(s)`). -/
def pyDropRight (s : String) (n : Nat) : String :=
  String.mk (s.data.take (s.data.length - n))

/-- Python `s.strip()`: remove leading and trailing whitespace. -/
def pyStrip (s : String) : String :=
  String.mk (((s.data.dropWhile Char.isWhitespace).reverse.dropWhile
    Char.isWhitespace).reverse)

/-! ## Arrival extraction (main.py lines 333–396) -/

/-- The ordered tuple of directional endings `("CDU", "CSU", "SU", "U", "E")`
iterated by `_route_from_pattern` (main.py line 343). -/
def dirSuffixes : List String := ["CDU", "CSU", "SU", "U", "E"]

/-- The suffix-stripping loop of `_route_from_pattern` (main.py lines 343–346):
the first ending (in tuple order) that `rp.upper()` ends with is stripped from
`rp` (`rp[:-len(sfx)]`); if none matches, `rp` is returned unchanged. -/
def stripDirSuffix (rp : String) : String :=
  match dirSuffixes.find? (fun sfx => pyEndsWith (pyUpper rp) sfx) with
  | some sfx => pyDropRight rp sfx.length
  | none => rp

/-- Function `_route_from_pattern` (main.py lines 333–346): split the pattern id on
`":"`; fewer than two parts yields `""`; otherwise strip one directional
suffix from the second part. -/
def route_from_pattern (pid : String) : String :=
  match pySplit ':' pid with
  | _ :: rp :: _ => stripDirSuffix rp
  | _ => ""

/-- One element of a pattern's `"times"` list.  All fields may be missing in
the JSON; the code reads them with `t.get(key, default)`. -/
structure TimeEntry where
  serviceDay : Option Int := none
  realtimeArrival : Option Int := none
  scheduledArrival : Option Int := none
  headsign : Option String := none
  realtime : Option Bool := none
deriving Repr, DecidableEq

/-- One pattern record: `p.get("pattern", {}).get("id", "")` and
`p.get("times", [])`. -/
structure Pattern where
  patternId : Option String := none
  times : List TimeEntry := []
deriving Repr, DecidableEq

/-- The absolute arrival epoch computed at main.py lines 357 and 375:
`t.get("serviceDay", 0) + t.get("realtimeArrival", t.get("scheduledArrival", 0))`. -/
def arrTs (t : TimeEntry) : Int :=
  t.serviceDay.getD 0 + t.realtimeArrival.getD (t.scheduledArrival.getD 0)

/-- A record appended by `extract_arrivals` (main.py lines 360–364). -/
structure Arrival where
  minutes : Int
  headsign : String
  realtime : Bool
deriving Repr, DecidableEq

/-- A record appended by `extract_all_arrivals` (main.py lines 378–383). -/
structure LineArrival where
  line : String
  minutes : Int
  headsign : String
  realtime : Bool
deriving Repr, DecidableEq

/-- The accumulation loop of `extract_arrivals` (main.py lines 352–364),
before the final sort and truncation: patterns whose stripped route code
(lower-cased) differs from the trimmed, lower-cased requested line are
skipped; time entries with `arr_ts <= now_ts` are skipped; the rest yield
`{minutes := (arr_ts - now_ts) // 60, headsign, realtime}`. -/
def gatherArrivals (patterns : List Pattern) (line : String) (nowTs : Int) :
    List Arrival :=
  let ll := pyLower (pyStrip line)
  patterns.flatMap (fun p =>
    if pyLower (route_from_pattern (p.patternId.getD "")) ≠ ll then []
    else p.times.filterMap (fun t =>
      if arrTs t ≤ nowTs then none
      else some { minutes := (arrTs t - nowTs).fdiv 60,
                  headsign := t.headsign.getD "?",
                  realtime := t.realtime.getD false }))

/-- The comparison used by `out.sort(key=lambda x: x["minutes"])`
(main.py lines 365 and 384). -/
def arrivalLE (x y : Arrival) : Prop := x.minutes ≤ y.minutes

instance : DecidableRel arrivalLE :=
  fun x y => inferInstanceAs (Decidable (x.minutes ≤ y.minutes))

instance : IsTotal Arrival arrivalLE := ⟨fun a b => le_total a.minutes b.minutes⟩

instance : IsTrans Arrival arrivalLE := ⟨fun _ _ _ h1 h2 => le_trans h1 h2⟩

/-- Same comparison for the records of `extract_all_arrivals`. -/
def lineArrivalLE (x y : LineArrival) : Prop := x.minutes ≤ y.minutes

instance : DecidableRel lineArrivalLE :=
  fun x y => inferInstanceAs (Decidable (x.minutes ≤ y.minutes))

instance : IsTotal LineArrival lineArrivalLE :=
  ⟨fun a b => le_total a.minutes b.minutes⟩

instance : IsTrans LineArrival lineArrivalLE :=
  ⟨fun _ _ _ h1 h2 => le_trans h1 h2⟩

/-- Function `extract_arrivals` (main.py lines 349–366): gather, sort ascending by
`minutes` (Python `list.sort` is a stable ascending sort, modelled by the
stable `List.insertionSort`), return the first `MAX_ARRIVALS`. -/
def extract_arrivals (patterns : List Pattern) (line : String) (nowTs : Int) :
    List Arrival :=
  ((gatherArrivals patterns line nowTs).insertionSort arrivalLE).take
    MAX_ARRIVALS

/-- The accumulation loop of `extract_all_arrivals` (main.py lines 371–383),
before the final sort: no line filter; each record also carries the stripped
route code as `line`. -/
def gatherAllArrivals (patterns : List Pattern) (nowTs : Int) :
    List LineArrival :=
  patterns.flatMap (fun p =>
    let rn := route_from_pattern (p.patternId.getD "")
    p.times.filterMap (fun t =>
      if arrTs t ≤ nowTs then none
      else some { line := rn,
                  minutes := (arrTs t - nowTs).fdiv 60,
                  headsign := t.headsign.getD "?",
                  realtime := t.realtime.getD false }))

/-- Function `extract_all_arrivals` (main.py lines 369–385): gather across every
pattern, then sort ascending by `minutes` (main.py line 384) and return the
whole list. -/
def extract_all_arrivals (patterns : List Pattern) (nowTs : Int) :
    List LineArrival :=
  (gatherAllArrivals patterns nowTs).insertionSort lineArrivalLE

/-! ## Trips and per-user state (main.py lines 119–127, 388–396) -/

/-- One ride segment of a combo. -/
structure Leg where
  line : String
  stop_id_boarding : String
  stop_id_alighting : String
deriving Repr, DecidableEq

/-- One named alternative route of a trip. -/
structure Combo where
  name : String
  legs : List Leg
deriving Repr, DecidableEq

/-- One user-defined trip. -/
structure Trip where
  name : String
  combos : List Combo
deriving Repr, DecidableEq

/-- A value of the `stop_msgs` map: either the legacy bare stop-id string, or
the `{stop_id, expires}` dict shape whose fields may individually be missing
(main.py lines 671–676 read both shapes). -/
inductive StopInfo
  | legacy (stopId : String)
  | obj (stopId : Option String) (expires : Option Int)
deriving Repr, DecidableEq

/-- The `state` part of a user's data blob.  `stop_msgs` is a JSON dict
keyed by the message-id string; it is modelled as an association list in
insertion order (Python dicts iterate in insertion order, keys unique). -/
structure UserState where
  dashboard_msgs : List (Option Nat)
  stop_msgs : List (Nat × StopInfo)
deriving Repr, DecidableEq

/-- One user's data blob `{trips, state}`. -/
structure UserData where
  trips : List Trip
  state : UserState
deriving Repr, DecidableEq

/-! ## Telegram edit outcomes

`edit_message_text` is an external effect; each call's outcome is supplied by
an oracle.  The branches of the `except` handlers at main.py lines 650–659
and 695–703 distinguish exactly these cases. -/

inductive EditOutcome
  | ok
  | notModified
  | notFound
  | otherBadRequest
  | netError
deriving Repr, DecidableEq

/-! ## Per-user reconciliation (`_update_user`, main.py lines 628–708) -/

/-- One iteration of the dashboard loop (main.py lines 641–659) for slot `i`
holding `mid`: slots that are falsy (`None` or `0`) or beyond the trip count
are skipped; an edit whose outcome is "message not found" nulls the slot and
sets the `changed` flag; every other outcome leaves the slot alone. -/
def dashSlotStep (numTrips : Nat) (outcome : Nat → EditOutcome) (i : Nat)
    (mid : Option Nat) : Option Nat × Bool :=
  match mid with
  | none => (none, false)
  | some m =>
    if m = 0 ∨ numTrips ≤ i then (some m, false)
    else
      match outcome i with
      | .notFound => (none, true)
      | _ => (some m, false)

/-- The dashboard loop of `_update_user`, recursing over the slots with their
`enumerate` index; returns the slot list after the loop and the `changed`
flag (main.py lines 638–662). -/
def dashRecAux (numTrips : Nat) (outcome : Nat → EditOutcome) :
    Nat → List (Option Nat) → List (Option Nat) × Bool
  | _, [] => ([], false)
  | i, mid :: rest =>
    let s := dashSlotStep numTrips outcome i mid
    let r := dashRecAux numTrips outcome (i + 1) rest
    (s.1 :: r.1, s.2 || r.2)

/-- Dashboard sub-reconciliation: run the loop from index 0.  The slot list
is mutated in place by the code, so the first component is the dashboard
state after the loop; the second is whether `save_user_data` was called for
the dashboard (main.py lines 660–662). -/
def dashReconcile (dmsgs : List (Option Nat)) (numTrips : Nat)
    (outcome : Nat → EditOutcome) : List (Option Nat) × Bool :=
  dashRecAux numTrips outcome 0 dmsgs

/-- The stop id read from a stop-message entry
(`info` if it is a bare string, else `info.get("stop_id", "")`,
main.py lines 672 and 675, also line 608). -/
def stopInfoStopId : StopInfo → String
  | .legacy s => s
  | .obj sid _ => sid.getD ""

/-- The expiry instant read from a stop-message entry: a legacy bare-string
entry gets `now_unix + STOP_TTL_SECONDS`; a dict entry gets its `expires`
field, defaulting to `now_unix + STOP_TTL_SECONDS` when missing
(main.py lines 671–676). -/
def stopInfoExp (nowUnix : Int) : StopInfo → Int
  | .legacy _ => nowUnix + STOP_TTL_SECONDS
  | .obj _ e => e.getD (nowUnix + STOP_TTL_SECONDS)

/-- The `expired` list accumulated by the stop-message loop (main.py lines
667–703): an entry is appended when its expiry instant has passed
(`now_unix >= exp`, line 678) or, otherwise, when its edit reports
"message not found" (line 699).  The edit is only attempted — and hence its
outcome only consulted — for unexpired entries. -/
def stopExpiredAux (nowUnix : Int) (outcome : Nat → EditOutcome) :
    List (Nat × StopInfo) → List Nat
  | [] => []
  | (mid, info) :: rest =>
    if nowUnix ≥ stopInfoExp nowUnix info then
      mid :: stopExpiredAux nowUnix outcome rest
    else
      match outcome mid with
      | .notFound => mid :: stopExpiredAux nowUnix outcome rest
      | _ => stopExpiredAux nowUnix outcome rest

/-- Live-stop sub-reconciliation (main.py lines 664–708): compute the
`expired` list, then for each expired message id attempt a delete and pop it
from the `stop_msgs` map (`untrack_stop`, main.py lines 523–526).  Returns
the surviving map and the list of message ids whose deletion was attempted,
in order. -/
def stopReconcile (smsgs : List (Nat × StopInfo)) (nowUnix : Int)
    (outcome : Nat → EditOutcome) : List (Nat × StopInfo) × List Nat :=
  let expired := stopExpiredAux nowUnix outcome smsgs
  (smsgs.filter (fun e => !(expired.contains e.1)), expired)

/-- The observable result of one `_update_user` call: the user's state after
the call (the code never writes `trips`, which is therefore passed through),
whether the dashboard change was persisted, and which chat messages had a
delete attempted. -/
structure UpdateResult where
  trips : List Trip
  dashboard_msgs : List (Option Nat)
  stop_msgs : List (Nat × StopInfo)
  dashPersisted : Bool
  deletedMsgs : List Nat
deriving Repr, DecidableEq

/-- Function `_update_user` (main.py lines 628–708) as a state transformer.  The
fetched maps `st_map` / `nm_map` feed only the rendered message texts, which
never influence the control flow (the edit outcome does, and it is supplied
by the oracles `dashOutcome` — indexed by slot — and `stopOutcome` — indexed
by message id). -/
def update_user (u : UserData) (dashOutcome : Nat → EditOutcome)
    (stopOutcome : Nat → EditOutcome) (nowUnix : Int) : UpdateResult :=
  let d := dashReconcile u.state.dashboard_msgs u.trips.length dashOutcome
  let s := stopReconcile u.state.stop_msgs nowUnix stopOutcome
  { trips := u.trips
    dashboard_msgs := d.1
    stop_msgs := s.1
    dashPersisted := d.2
    deletedMsgs := s.2 }

/-! ## Subscription aggregation (main.py lines 388–396 and 594–614) -/

/-- Function `collect_all_stop_ids` (main.py lines 388–396): the set of boarding and
alighting ids across every leg of every combo of every trip. -/
def collect_all_stop_ids (trips : List Trip) : Finset String :=
  (trips.flatMap (fun trip =>
    trip.combos.flatMap (fun combo =>
      combo.legs.flatMap (fun leg =>
        [leg.stop_id_boarding, leg.stop_id_alighting])))).toFinset

/-- The stop ids one user contributes to a cycle (main.py lines 598–610):
trip stop ids only when the user has dashboard messages, plus every non-empty
stop id of the user's stop messages (`sid = info if isinstance(info, str)
else info.get("stop_id", "")`, skipped when falsy). -/
def userSids (u : UserData) : Finset String :=
  (if u.state.dashboard_msgs.isEmpty then ∅
   else collect_all_stop_ids u.trips) ∪
  (u.state.stop_msgs.filterMap (fun e =>
    let sid := stopInfoStopId e.2
    if sid = "" then none else some sid)).toFinset

/-- The `all_sids` set a cycle accumulates with `|=` across every user
(main.py lines 595–610).  A user with neither dashboard messages nor stop
messages is skipped by the loop; such a user's `userSids` is empty, so the
accumulated set is the plain union over all users. -/
def aggregateSids (users : List UserData) : Finset String :=
  users.foldl (fun acc u => acc ∪ userSids u) ∅

/-! ## Batch fetch (main.py lines 269–313) -/

/-- Response of `GET /stops/gtt:{sid}`: an HTTP status and the optional
`"name"` field of the JSON body. -/
structure NameResp where
  status : Nat
  nameField : Option String
deriving Repr, DecidableEq

/-- Response of `GET /stops/gtt:{sid}/stoptimes`: an HTTP status and the
JSON body (a list of pattern records). -/
structure TimesResp where
  status : Nat
  body : List Pattern
deriving Repr, DecidableEq

/-- Result of one HTTP request: a response, or a raised transport
exception. -/
inductive HttpResult (α : Type)
  | success (r : α)
  | error
deriving Repr, DecidableEq

/-- Function `fetch_stop_name` (main.py lines 269–277): on a 200 response return the
body's `"name"` defaulting to the id; on any other status, or on an
exception, fall through and return the id. -/
def fetch_stop_name (sid : String) (resp : HttpResult NameResp) : String :=
  match resp with
  | .success r => if r.status = 200 then r.nameField.getD sid else sid
  | .error => sid

/-- Function `fetch_stoptimes` (main.py lines 280–288): on a 200 response return the
body; on any other status, or on an exception, return `[]`. -/
def fetch_stoptimes (sid : String) (resp : HttpResult TimesResp) :
    List Pattern :=
  match resp with
  | .success r => if r.status = 200 then r.body else []
  | .error => []

/-- The keys of the task list built by `fetch_all_stops` (main.py lines
299–303): for each stop id in iteration order, one `"st_" + sid` stoptimes
task and one `"nm_" + sid` name task. -/
def fetchRequestKeys (sids : List String) : List String :=
  sids.flatMap (fun sid => ["st_" ++ sid, "nm_" ++ sid])

/-- Function `fetch_all_stops` (main.py lines 291–313): gather every task and split
the results by key prefix into the two maps; the entry of each stop id is
exactly the result of its own two requests, whose outcomes are supplied by
the per-id oracles. -/
def fetch_all_stops (sids : List String)
    (timesNet : String → HttpResult TimesResp)
    (nameNet : String → HttpResult NameResp) :
    List (String × List Pattern) × List (String × String) :=
  (sids.map (fun sid => (sid, fetch_stoptimes sid (timesNet sid))),
   sids.map (fun sid => (sid, fetch_stop_name sid (nameNet sid))))

/-! ## Scheduler loop (main.py lines 572–625) -/

/-- The optional `night_pause` config dict; both hour fields may be missing
and default to 2 and 7 (main.py lines 583–584). -/
structure NightPause where
  start_hour : Option Int := none
  end_hour : Option Int := none
deriving Repr, DecidableEq

/-- The quiet-hours gate of `updater_loop` (main.py lines 582–587): with a
truthy `night_pause` configured, a cycle at local hour `hour` is skipped
exactly when `night_s <= now.hour < night_e`. -/
def suppressCycle (np : Option NightPause) (hour : Int) : Bool :=
  match np with
  | none => false
  | some w => decide (w.start_hour.getD 2 ≤ hour ∧ hour < w.end_hour.getD 7)

/-- One iteration of `updater_loop` up to the batch fetch (main.py lines
578–617): `none` when the cycle does no work (quiet hours, no users, or an
empty stop-id set — each case just sleeps), otherwise `some` of the stop-id
set handed to `fetch_all_stops`. -/
def updaterCycle (np : Option NightPause) (hour : Int)
    (users : List UserData) : Option (Finset String) :=
  if suppressCycle np hour then none
  else if users.isEmpty then none
  else
    let allSids := aggregateSids users
    if allSids = ∅ then none else some allSids

/-- A concrete pattern used by witnesses: the worked example of the spec,
one time entry with `serviceDay=1000` and `realtimeArrival=500`. -/
def examplePattern : Pattern :=
  { patternId := some "gtt:16CDU"
    times := [{ serviceDay := some 1000, realtimeArrival := some 500 }] }

/-- A concrete pattern pair used to exercise the global sort of
`extract_all_arrivals`: line 4 with an arrival 700 seconds out listed before
line 10 with an arrival 100 seconds out. -/
def examplePatternPair : List Pattern :=
  [{ patternId := some "gtt:4U"
     times := [{ serviceDay := some 0, scheduledArrival := some 700 }] },
   { patternId := some "gtt:10U"
     times := [{ serviceDay := some 0, scheduledArrival := some 100 }] }]

/-- A concrete user used by witnesses: no trips, no dashboard, one tracked
live-stop message (id 1) for stop `"247"` in the legacy bare-string shape. -/
def exampleUser : UserData :=
  { trips := []
    state := { dashboard_msgs := [], stop_msgs := [(1, .legacy "247")] } }

/-- A concrete user used by witnesses: two trips with two live dashboard
messages, and one unexpired tracked stop message. -/
def exampleUser2 : UserData :=
  { trips := [{ name := "A", combos := [] }, { name := "B", combos := [] }]
    state := { dashboard_msgs := [some 10, some 11]
               stop_msgs := [(5, .obj (some "100") (some 2000))] } }

/-- A concrete user used by witnesses: one tracked stop message whose expiry
instant 500 has already passed at reconciliation time 1000. -/
def exampleUser3 : UserData :=
  { trips := []
    state := { dashboard_msgs := []
               stop_msgs := [(7, .obj (some "100") (some 500))] } }

/-! ## Theorems -/

/-- C2: for every pattern identifier, `_route_from_pattern` strips at most
one directional suffix from the second `":"`-separated part, choosing among
`CDU`, `CSU`, `SU`, `U`, `E` in that priority order (so a code ending in
`CDU` is stripped of the three-character suffix and never treated as merely
ending in `U`); an identifier with no `":"` separator yields the empty route
code; `"gtt:16CDU"` yields `"16"` and `"gtt:42U"` yields `"42"`. -/
theorem claim_C2 :
    (∀ rp : String, stripDirSuffix rp =
      if pyEndsWith (pyUpper rp) "CDU" then pyDropRight rp 3
      else if pyEndsWith (pyUpper rp) "CSU" then pyDropRight rp 3
      else if pyEndsWith (pyUpper rp) "SU" then pyDropRight rp 2
      else if pyEndsWith (pyUpper rp) "U" then pyDropRight rp 1
      else if pyEndsWith (pyUpper rp) "E" then pyDropRight rp 1
      else rp)
  ∧ (∀ pid : String, (pySplit ':' pid).length < 2 →
      route_from_pattern pid = "")
  ∧ route_from_pattern "gtt:16CDU" = "16"
  ∧ route_from_pattern "gtt:42U" = "42" := by
  refine ⟨fun rp => ?_, fun pid h => ?_, by decide, by decide⟩
  · cases h1 : pyEndsWith (pyUpper rp) "CDU" <;>
      cases h2 : pyEndsWith (pyUpper rp) "CSU" <;>
        cases h3 : pyEndsWith (pyUpper rp) "SU" <;>
          cases h4 : pyEndsWith (pyUpper rp) "U" <;>
            cases h5 : pyEndsWith (pyUpper rp) "E" <;>
              simp [stripDirSuffix, dirSuffixes, List.find?, h1, h2, h3, h4,
                h5] <;> rfl
  · unfold route_from_pattern
    match hsp : pySplit ':' pid with
    | [] => rfl
    | [_] => rfl
    | _ :: _ :: _ => rw [hsp] at h; simp at h; omega

/-- Witness for C2: the no-separator hypothesis discharged at the concrete
identifier `"16CDU"`. -/
theorem claim_C2_witness :
    (pySplit ':' "16CDU").length < 2 ∧ route_from_pattern "16CDU" = "" :=
  ⟨by decide, claim_C2.2.1 "16CDU" (by decide)⟩

/-- C7: with a quiet-hours window configured, a cycle at local hour `h` is
suppressed (the updater does no work: `updaterCycle` produces no fetch set)
exactly when `start_hour ≤ h < end_hour`; with the window `{2, 7}` a cycle
at hour 3 does no work and a cycle at hour 7 with an active user resumes
fetching. -/
theorem claim_C7 :
    (∀ (w : NightPause) (h : Int),
      suppressCycle (some w) h = true ↔
        w.start_hour.getD 2 ≤ h ∧ h < w.end_hour.getD 7)
  ∧ (∀ (np : Option NightPause) (h : Int) (users : List UserData),
      suppressCycle np h = true → updaterCycle np h users = none)
  ∧ (∀ users : List UserData,
      updaterCycle (some { start_hour := some 2, end_hour := some 7 }) 3
        users = none)
  ∧ (∀ (np : Option NightPause) (h : Int) (users : List UserData),
      suppressCycle np h = false → ¬ users.isEmpty →
      aggregateSids users ≠ ∅ →
      updaterCycle np h users = some (aggregateSids users)) := by
  refine ⟨fun w h => ?_, fun np h users hs => ?_, fun users => ?_,
    fun np h users hs hu ha => ?_⟩
  · simp [suppressCycle]
  · simp [updaterCycle, hs]
  · have : suppressCycle
        (some { start_hour := some 2, end_hour := some 7 }) 3 = true := by
      decide
    simp [updaterCycle, this]
  · simp [updaterCycle, hs, hu, ha]

/-- Witness for C7: hypotheses discharged at the window `{2, 7}`, hour 7,
and one user tracking the live stop `"247"`: the cycle resumes and fetches
that stop. -/
theorem claim_C7_witness :
    (suppressCycle (some { start_hour := some 2, end_hour := some 7 }) 7 =
      false)
  ∧ ¬ [exampleUser].isEmpty
  ∧ aggregateSids [exampleUser] ≠ ∅
  ∧ updaterCycle (some { start_hour := some 2, end_hour := some 7 }) 7
      [exampleUser] = some (aggregateSids [exampleUser]) :=
  ⟨by decide, by decide, by decide,
    claim_C7.2.2.2 _ 7 _ (by decide) (by decide) (by decide)⟩

/-- C10: with `start_hour > end_hour` (an overnight window such as start 22,
end 6) the suppression condition `start_hour ≤ h < end_hour` holds for no
hour at all, so no cycle is ever suppressed and the loop fetches and
reconciles around the clock. -/
theorem claim_C10 :
    (∀ (w : NightPause) (h : Int),
      w.end_hour.getD 7 < w.start_hour.getD 2 →
      suppressCycle (some w) h = false)
  ∧ (∀ (w : NightPause) (h : Int) (users : List UserData),
      w.end_hour.getD 7 < w.start_hour.getD 2 → ¬ users.isEmpty →
      aggregateSids users ≠ ∅ →
      updaterCycle (some w) h users = some (aggregateSids users)) := by
  constructor
  · intro w h hlt
    simp only [suppressCycle, decide_eq_false_iff_not, not_and, not_lt]
    intro hs
    omega
  · intro w h users hlt hu ha
    have hs : suppressCycle (some w) h = false := by
      simp only [suppressCycle, decide_eq_false_iff_not, not_and, not_lt]
      intro hs2
      omega
    simp [updaterCycle, hs, hu, ha]

/-- Witness for C10: the overnight window `{22, 6}` at hour 23 is not
suppressed, and with one active user the cycle fetches. -/
theorem claim_C10_witness :
    (suppressCycle (some { start_hour := some 22, end_hour := some 6 }) 23 =
      false)
  ∧ updaterCycle (some { start_hour := some 22, end_hour := some 6 }) 23
      [exampleUser] = some (aggregateSids [exampleUser]) :=
  ⟨claim_C10.1 { start_hour := some 22, end_hour := some 6 } 23 (by decide),
   claim_C10.2 { start_hour := some 22, end_hour := some 6 } 23 _
     (by decide) (by decide) (by decide)⟩

/-- Characterization of the records gathered by the all-lines loop: exactly
one record per time entry whose arrival epoch is strictly in the future. -/
theorem mem_gatherAllArrivals {patterns : List Pattern} {nowTs : Int}
    {a : LineArrival} :
    a ∈ gatherAllArrivals patterns nowTs ↔
      ∃ p ∈ patterns, ∃ t ∈ p.times, nowTs < arrTs t ∧
        a = { line := route_from_pattern (p.patternId.getD "")
              minutes := (arrTs t - nowTs).fdiv 60
              headsign := t.headsign.getD "?"
              realtime := t.realtime.getD false } := by
  simp only [gatherAllArrivals, List.mem_flatMap, List.mem_filterMap]
  constructor
  · rintro ⟨p, hp, t, ht, hft⟩
    by_cases hle : arrTs t ≤ nowTs
    · simp [hle] at hft
    · rw [if_neg hle] at hft
      exact ⟨p, hp, t, ht, by omega, (Option.some_inj.mp hft).symm⟩
  · rintro ⟨p, hp, t, ht, hlt, rfl⟩
    exact ⟨p, hp, t, ht, by rw [if_neg (not_le.mpr hlt)]⟩

/-- Characterization of the records gathered by the line-filtered loop. -/
theorem mem_gatherArrivals {patterns : List Pattern} {line : String}
    {nowTs : Int} {a : Arrival} :
    a ∈ gatherArrivals patterns line nowTs ↔
      ∃ p ∈ patterns,
        pyLower (route_from_pattern (p.patternId.getD "")) =
          pyLower (pyStrip line) ∧
        ∃ t ∈ p.times, nowTs < arrTs t ∧
          a = { minutes := (arrTs t - nowTs).fdiv 60
                headsign := t.headsign.getD "?"
                realtime := t.realtime.getD false } := by
  simp only [gatherArrivals, List.mem_flatMap]
  constructor
  · rintro ⟨p, hp, hin⟩
    by_cases hl : pyLower (route_from_pattern (p.patternId.getD "")) =
        pyLower (pyStrip line)
    · rw [if_neg (by simpa using hl)] at hin
      rw [List.mem_filterMap] at hin
      obtain ⟨t, ht, hft⟩ := hin
      by_cases hle : arrTs t ≤ nowTs
      · simp [hle] at hft
      · rw [if_neg hle] at hft
        exact ⟨p, hp, hl, t, ht, by omega, (Option.some_inj.mp hft).symm⟩
    · rw [if_pos (by simpa using hl)] at hin
      cases hin
  · rintro ⟨p, hp, hl, t, ht, hlt, rfl⟩
    refine ⟨p, hp, ?_⟩
    rw [if_neg (by simpa using hl), List.mem_filterMap]
    exact ⟨t, ht, by rw [if_neg (not_le.mpr hlt)]⟩

/-- Membership in the sorted all-lines output coincides with membership in
the gathered records. -/
theorem mem_extract_all_arrivals {patterns : List Pattern} {nowTs : Int}
    {a : LineArrival} :
    a ∈ extract_all_arrivals patterns nowTs ↔
      a ∈ gatherAllArrivals patterns nowTs :=
  (List.perm_insertionSort lineArrivalLE _).mem_iff

/-- Every record of the truncated, sorted line-filtered output is a gathered
record. -/
theorem mem_of_mem_extract_arrivals {patterns : List Pattern} {line : String}
    {nowTs : Int} {a : Arrival}
    (h : a ∈ extract_arrivals patterns line nowTs) :
    a ∈ gatherArrivals patterns line nowTs :=
  (List.perm_insertionSort arrivalLE _).mem_iff.mp
    ((List.take_sublist _ _).subset h)

/-- C1: in both extraction functions the absolute arrival epoch of a time
entry is the service-day base plus the realtime arrival offset when present,
otherwise the scheduled arrival offset; entries whose epoch is `≤ now` are
excluded; every retained record's `minutes` is the floor division of
`epoch − now` by 60 and is non-negative; and a time entry with
`serviceDay=1000`, `realtimeArrival=500` at `now=1300` yields `minutes = 3`. -/
theorem claim_C1 :
    (∀ t : TimeEntry, arrTs t = t.serviceDay.getD 0 +
      (match t.realtimeArrival with
       | some r => r
       | none => t.scheduledArrival.getD 0))
  ∧ (∀ (patterns : List Pattern) (line : String) (nowTs : Int) a,
      a ∈ extract_arrivals patterns line nowTs →
      0 ≤ a.minutes ∧ ∃ p ∈ patterns, ∃ t ∈ p.times,
        nowTs < arrTs t ∧ a.minutes = (arrTs t - nowTs).fdiv 60)
  ∧ (∀ (patterns : List Pattern) (nowTs : Int) a,
      a ∈ extract_all_arrivals patterns nowTs →
      0 ≤ a.minutes ∧ ∃ p ∈ patterns, ∃ t ∈ p.times,
        nowTs < arrTs t ∧ a.minutes = (arrTs t - nowTs).fdiv 60)
  ∧ (∀ (patterns : List Pattern) (nowTs : Int) (p : Pattern) (t : TimeEntry),
      p ∈ patterns → t ∈ p.times → nowTs < arrTs t →
      ({ line := route_from_pattern (p.patternId.getD "")
         minutes := (arrTs t - nowTs).fdiv 60
         headsign := t.headsign.getD "?"
         realtime := t.realtime.getD false } : LineArrival) ∈
        extract_all_arrivals patterns nowTs)
  ∧ extract_all_arrivals [examplePattern] 1300 =
      [{ line := "16", minutes := 3, headsign := "?", realtime := false }] := by
  refine ⟨fun t => ?_, fun patterns line nowTs a h => ?_,
    fun patterns nowTs a h => ?_, fun patterns nowTs p t hp ht hlt => ?_,
    by decide⟩
  · cases h : t.realtimeArrival <;> simp [arrTs, h]
  · obtain ⟨p, hp, _, t, ht, hlt, rfl⟩ :=
      mem_gatherArrivals.mp (mem_of_mem_extract_arrivals h)
    exact ⟨Int.fdiv_nonneg (by omega) (by norm_num), p, hp, t, ht, hlt, rfl⟩
  · obtain ⟨p, hp, t, ht, hlt, rfl⟩ :=
      mem_gatherAllArrivals.mp (mem_extract_all_arrivals.mp h)
    exact ⟨Int.fdiv_nonneg (by omega) (by norm_num), p, hp, t, ht, hlt, rfl⟩
  · exact mem_extract_all_arrivals.mpr
      (mem_gatherAllArrivals.mpr ⟨p, hp, t, ht, hlt, rfl⟩)

/-- Witness for C1: the retained-record property applied to the concrete
worked example of the spec. -/
theorem claim_C1_witness :
    0 ≤ ({ line := "16", minutes := 3, headsign := "?",
           realtime := false } : LineArrival).minutes
  ∧ ∃ p ∈ [examplePattern], ∃ t ∈ p.times, (1300 : Int) < arrTs t ∧
      ({ line := "16", minutes := 3, headsign := "?",
         realtime := false } : LineArrival).minutes =
        (arrTs t - 1300).fdiv 60 :=
  claim_C1.2.2.1 [examplePattern] 1300
    { line := "16", minutes := 3, headsign := "?", realtime := false }
    (by decide)

/-- Counterexample to C3 as stated: the all-lines extraction is NOT globally
unsorted.  On a concrete input whose encounter order (the gathered list)
puts line 4's 11-minute arrival before line 10's 1-minute arrival, the
function reorders the records across lines, returning them globally sorted
by minutes. -/
theorem claim_C3_counterexample :
    extract_all_arrivals examplePatternPair 0 ≠
      gatherAllArrivals examplePatternPair 0
  ∧ gatherAllArrivals examplePatternPair 0 =
      [{ line := "4", minutes := 11, headsign := "?", realtime := false },
       { line := "10", minutes := 1, headsign := "?", realtime := false }]
  ∧ extract_all_arrivals examplePatternPair 0 =
      [{ line := "10", minutes := 1, headsign := "?", realtime := false },
       { line := "4", minutes := 11, headsign := "?", realtime := false }] := by
  refine ⟨by decide, by decide, by decide⟩

/-- C3 as amended: line-filtered extraction returns at most 3 results,
sorted ascending by minutes; all-lines extraction returns every future
arrival (it is a permutation of the gathered records), and its result list
is globally sorted ascending by minutes — the code imposes a global ordering
across lines; grouping by line is left to the caller. -/
theorem claim_C3_amended :
    (∀ (patterns : List Pattern) (line : String) (nowTs : Int),
      (extract_arrivals patterns line nowTs).length ≤ 3
      ∧ (extract_arrivals patterns line nowTs).Pairwise arrivalLE)
  ∧ (∀ (patterns : List Pattern) (nowTs : Int),
      (extract_all_arrivals patterns nowTs).Pairwise lineArrivalLE
      ∧ (extract_all_arrivals patterns nowTs).Perm
          (gatherAllArrivals patterns nowTs)) := by
  constructor
  · intro patterns line nowTs
    refine ⟨List.length_take_le 3 _, ?_⟩
    exact List.Pairwise.sublist (List.take_sublist _ _)
      (List.sorted_insertionSort arrivalLE _)
  · intro patterns nowTs
    exact ⟨List.sorted_insertionSort lineArrivalLE _,
      List.perm_insertionSort lineArrivalLE _⟩

/-- Looking up a key in a map built pointwise over a list of keys returns
the value computed from that key, for any key in the list. -/
theorem lookup_map_pair {β : Type} (f : String → β) :
    ∀ (sids : List String) (sid : String), sid ∈ sids →
      (sids.map (fun s => (s, f s))).lookup sid = some (f sid) := by
  intro sids
  induction sids with
  | nil => intro sid h; cases h
  | cons a l ih =>
    intro sid h
    by_cases hsa : sid = a
    · subst hsa
      simp [List.lookup_cons]
    · have hmem : sid ∈ l := by
        rcases List.mem_cons.mp h with h1 | h1
        · exact absurd h1 hsa
        · exact h1
      rw [List.map_cons, List.lookup_cons, beq_false_of_ne hsa]
      exact ih sid hmem

/-- C8: a fetch failure (transport exception or non-200 status) for one
stop id never aborts the fetches for the other ids — for every id in the
batch, regardless of how the network oracles answer any request, both result
maps carry an entry for that id, and on failure the id maps to the empty
time-series list and to the id string itself as its display name.  The
fetch functions are total: an exception is absorbed into the fallback value
and never propagates into the scheduler. -/
theorem claim_C8 (sids : List String)
    (timesNet : String → HttpResult TimesResp)
    (nameNet : String → HttpResult NameResp)
    (sid : String) (h : sid ∈ sids) :
    (fetch_all_stops sids timesNet nameNet).1.lookup sid =
      some (fetch_stoptimes sid (timesNet sid))
  ∧ (fetch_all_stops sids timesNet nameNet).2.lookup sid =
      some (fetch_stop_name sid (nameNet sid))
  ∧ (timesNet sid = .error → fetch_stoptimes sid (timesNet sid) = [])
  ∧ (∀ r, timesNet sid = .success r → r.status ≠ 200 →
      fetch_stoptimes sid (timesNet sid) = [])
  ∧ (nameNet sid = .error → fetch_stop_name sid (nameNet sid) = sid)
  ∧ (∀ r, nameNet sid = .success r → r.status ≠ 200 →
      fetch_stop_name sid (nameNet sid) = sid) := by
  refine ⟨lookup_map_pair _ sids sid h, lookup_map_pair _ sids sid h,
    ?_, ?_, ?_, ?_⟩
  · intro he; rw [he]; rfl
  · intro r hr hs; rw [hr]; simp [fetch_stoptimes, hs]
  · intro he; rw [he]; rfl
  · intro r hr hs; rw [hr]; simp [fetch_stop_name, hs]

/-- Witness for C8: a two-id batch whose every request fails with a
transport error; id `"100"` still gets both entries, with the empty list and
its own id as name. -/
theorem claim_C8_witness :
    ("100" : String) ∈ ["100", "200"]
  ∧ (fetch_all_stops ["100", "200"] (fun _ => .error)
      (fun _ => .error)).1.lookup "100" = some []
  ∧ (fetch_all_stops ["100", "200"] (fun _ => .error)
      (fun _ => .error)).2.lookup "100" = some "100" :=
  ⟨by decide,
   (claim_C8 ["100", "200"] (fun _ => .error) (fun _ => .error) "100"
     (by decide)).1,
   (claim_C8 ["100", "200"] (fun _ => .error) (fun _ => .error) "100"
     (by decide)).2.1⟩

/-- Appending different three-letter tags to any two stop ids yields
different request keys. -/
theorem st_key_ne_nm_key (a b : String) : "st_" ++ a ≠ "nm_" ++ b := by
  intro h
  have hd := congrArg String.data h
  rw [String.data_append, String.data_append] at hd
  have hd2 : ('s' :: 't' :: '_' :: a.data) =
      ('n' :: 'm' :: '_' :: b.data) := hd
  injection hd2 with h1 _
  exact absurd h1 (by decide)

/-- Appending the same tag to two stop ids yields equal keys only for equal
ids. -/
theorem tag_append_inj {tag a b : String} (h : tag ++ a = tag ++ b) :
    a = b := by
  have hd := congrArg String.data h
  rw [String.data_append, String.data_append] at hd
  exact String.ext (List.append_cancel_left hd)

/-- A stop id outside the batch contributes no request keys. -/
theorem count_fetchRequestKeys_zero :
    ∀ (sids : List String) (sid : String), sid ∉ sids →
      (fetchRequestKeys sids).count ("st_" ++ sid) = 0
      ∧ (fetchRequestKeys sids).count ("nm_" ++ sid) = 0 := by
  intro sids
  induction sids with
  | nil => intro sid _; simp [fetchRequestKeys]
  | cons a l ih =>
    intro sid h
    have hne : sid ≠ a := fun he => h (he ▸ List.mem_cons_self a l)
    have hl : sid ∉ l := fun hm => h (List.mem_cons_of_mem a hm)
    have hst : ("st_" ++ a == "st_" ++ sid) = false :=
      beq_false_of_ne (fun he => hne (tag_append_inj he).symm)
    have hnm : ("nm_" ++ a == "nm_" ++ sid) = false :=
      beq_false_of_ne (fun he => hne (tag_append_inj he).symm)
    have hx : ("nm_" ++ a == "st_" ++ sid) = false :=
      beq_false_of_ne fun he => st_key_ne_nm_key sid a he.symm
    have hy : ("st_" ++ a == "nm_" ++ sid) = false :=
      beq_false_of_ne (st_key_ne_nm_key a sid)
    have := ih sid hl
    simp only [fetchRequestKeys, List.flatMap_cons] at this ⊢
    simp [List.count_cons, List.count_append, hst, hnm, hx, hy, this.1,
      this.2]

/-- Each stop id in a deduplicated batch produces exactly one stoptimes
request key and exactly one name request key. -/
theorem count_fetchRequestKeys_one :
    ∀ (sids : List String), sids.Nodup → ∀ sid ∈ sids,
      (fetchRequestKeys sids).count ("st_" ++ sid) = 1
      ∧ (fetchRequestKeys sids).count ("nm_" ++ sid) = 1 := by
  intro sids
  induction sids with
  | nil => intro _ sid h; cases h
  | cons a l ih =>
    intro hnd sid h
    have hal : a ∉ l := (List.nodup_cons.mp hnd).1
    have hndl : l.Nodup := (List.nodup_cons.mp hnd).2
    by_cases hsa : sid = a
    · subst hsa
      have hz := count_fetchRequestKeys_zero l sid hal
      have hy : ("st_" ++ sid == "nm_" ++ sid) = false :=
        beq_false_of_ne (st_key_ne_nm_key sid sid)
      have hx : ("nm_" ++ sid == "st_" ++ sid) = false :=
        beq_false_of_ne fun he => st_key_ne_nm_key sid sid he.symm
      simp only [fetchRequestKeys, List.flatMap_cons] at hz ⊢
      simp [List.count_cons, List.count_append, hx, hy, hz.1, hz.2]
    · have hmem : sid ∈ l := by
        rcases List.mem_cons.mp h with h1 | h1
        · exact absurd h1 hsa
        · exact h1
      have hrec := ih hndl sid hmem
      have hst : ("st_" ++ a == "st_" ++ sid) = false :=
        beq_false_of_ne (fun he => hsa (tag_append_inj he).symm)
      have hnm : ("nm_" ++ a == "nm_" ++ sid) = false :=
        beq_false_of_ne (fun he => hsa (tag_append_inj he).symm)
      have hx : ("nm_" ++ a == "st_" ++ sid) = false :=
        beq_false_of_ne fun he => st_key_ne_nm_key sid a he.symm
      have hy : ("st_" ++ a == "nm_" ++ sid) = false :=
        beq_false_of_ne (st_key_ne_nm_key a sid)
      simp only [fetchRequestKeys, List.flatMap_cons] at hrec ⊢
      simp [List.count_cons, List.count_append, hst, hnm, hx, hy, hrec.1,
        hrec.2]

/-- Membership in the folded union of per-user stop-id sets. -/
theorem mem_aggregateSids {users : List UserData} {sid : String} :
    sid ∈ aggregateSids users ↔ ∃ u ∈ users, sid ∈ userSids u := by
  have haux : ∀ (us : List UserData) (init : Finset String),
      sid ∈ us.foldl (fun acc u => acc ∪ userSids u) init ↔
        sid ∈ init ∨ ∃ u ∈ us, sid ∈ userSids u := by
    intro us
    induction us with
    | nil => intro init; simp
    | cons a l ih =>
      intro init
      rw [List.foldl_cons, ih]
      simp only [Finset.mem_union, List.mem_cons]
      constructor
      · rintro (⟨h1 | h1⟩ | ⟨u, hu, h2⟩)
        · exact Or.inl h1
        · exact Or.inr ⟨a, Or.inl rfl, h1⟩
        · exact Or.inr ⟨u, Or.inr hu, h2⟩
      · rintro (h1 | ⟨u, hu | hu, h2⟩)
        · exact Or.inl (Or.inl h1)
        · exact Or.inl (Or.inr (hu ▸ h2))
        · exact Or.inr ⟨u, hu, h2⟩
  rw [aggregateSids, haux]
  simp

/-- C6: one cycle's aggregation is the plain, deduplicated union of every
user's stop ids — a stop id is fetched exactly when some user needs it — and
the batch fetch then issues exactly one stoptimes request and exactly one
name request per unique stop id in the aggregated set, not one per
user-subscription. -/
theorem claim_C6 :
    (∀ (users : List UserData) (sid : String),
      sid ∈ aggregateSids users ↔ ∃ u ∈ users, sid ∈ userSids u)
  ∧ (∀ (users : List UserData) (sid : String),
      sid ∈ aggregateSids users →
      (fetchRequestKeys (aggregateSids users).toList).count
        ("st_" ++ sid) = 1
      ∧ (fetchRequestKeys (aggregateSids users).toList).count
        ("nm_" ++ sid) = 1) := by
  constructor
  · intro users sid
    exact mem_aggregateSids
  · intro users sid h
    exact count_fetchRequestKeys_one (aggregateSids users).toList
      (aggregateSids users).nodup_toList sid (Finset.mem_toList.mpr h)

/-- Witness for C6: two users both subscribed to stop `"500"` (one through
a dict-shaped live-stop entry, one through a legacy entry); the aggregated
set contains `"500"` and the batch issues exactly one request of each kind
for it. -/
theorem claim_C6_witness :
    ("500" : String) ∈ aggregateSids
      [{ trips := [],
         state := { dashboard_msgs := [],
                    stop_msgs := [(1, .obj (some "500") (some 99))] } },
       { trips := [],
         state := { dashboard_msgs := [],
                    stop_msgs := [(2, .legacy "500")] } }]
  ∧ ((fetchRequestKeys (aggregateSids
      [{ trips := [],
         state := { dashboard_msgs := [],
                    stop_msgs := [(1, .obj (some "500") (some 99))] } },
       { trips := [],
         state := { dashboard_msgs := [],
                    stop_msgs := [(2, .legacy "500")] } }]).toList).count
        ("st_" ++ "500") = 1
     ∧ (fetchRequestKeys (aggregateSids
      [{ trips := [],
         state := { dashboard_msgs := [],
                    stop_msgs := [(1, .obj (some "500") (some 99))] } },
       { trips := [],
         state := { dashboard_msgs := [],
                    stop_msgs := [(2, .legacy "500")] } }]).toList).count
        ("nm_" ++ "500") = 1) :=
  ⟨by decide, claim_C6.2 _ "500" (by decide)⟩

/-- A dashboard slot whose edit does not report "message not found" is left
unchanged and does not set the `changed` flag. -/
theorem dashSlotStep_id (numTrips : Nat) (outcome : Nat → EditOutcome)
    (start : Nat) (mid : Option Nat) (h0 : outcome start ≠ .notFound) :
    dashSlotStep numTrips outcome start mid = (mid, false) := by
  cases mid with
  | none => rfl
  | some m =>
    simp only [dashSlotStep]
    split
    · rfl
    · cases hoc : outcome start <;> first | rfl | exact absurd hoc h0

/-- When no consulted edit reports "message not found", the dashboard loop
changes nothing and does not persist. -/
theorem dashRecAux_no_notFound (numTrips : Nat) (outcome : Nat → EditOutcome) :
    ∀ (dmsgs : List (Option Nat)) (start : Nat),
      (∀ j, j < dmsgs.length → outcome (start + j) ≠ .notFound) →
      dashRecAux numTrips outcome start dmsgs = (dmsgs, false) := by
  intro dmsgs
  induction dmsgs with
  | nil => intro start _; rfl
  | cons mid rest ih =>
    intro start h
    have h0 : outcome start ≠ .notFound := by
      have := h 0 (by simp)
      rwa [Nat.add_zero] at this
    have hrest := ih (start + 1) (fun j hj => by
      have := h (j + 1) (by simpa using Nat.succ_lt_succ hj)
      have heq : start + (j + 1) = start + 1 + j := by omega
      rwa [heq] at this)
    simp [dashRecAux, hrest, dashSlotStep_id numTrips outcome start mid h0]

/-- When exactly the slot at index `start + k` reports "message not found"
(its message id being truthy and within the trip count), the dashboard loop
nulls that slot, leaves all others unchanged, and sets the `changed` flag. -/
theorem dashRecAux_set (numTrips : Nat) (outcome : Nat → EditOutcome) :
    ∀ (dmsgs : List (Option Nat)) (start k m : Nat),
      dmsgs[k]? = some (some m) → m ≠ 0 → start + k < numTrips →
      outcome (start + k) = .notFound →
      (∀ j, j < dmsgs.length → j ≠ k → outcome (start + j) ≠ .notFound) →
      dashRecAux numTrips outcome start dmsgs = (dmsgs.set k none, true) := by
  intro dmsgs
  induction dmsgs with
  | nil => intro start k m hk; simp at hk
  | cons mid rest ih =>
    intro start k m hk hm htrip hnf hothers
    cases k with
    | zero =>
      have hmid : mid = some m := by simpa using hk
      subst hmid
      rw [Nat.add_zero] at htrip hnf
      have hrest := dashRecAux_no_notFound numTrips outcome rest (start + 1)
        (fun j hj => by
          have := hothers (j + 1) (by simpa using Nat.succ_lt_succ hj)
            (by omega)
          have heq : start + (j + 1) = start + 1 + j := by omega
          rwa [heq] at this)
      have hstep : dashSlotStep numTrips outcome start (some m) =
          (none, true) := by
        simp only [dashSlotStep]
        rw [if_neg (by omega), hnf]
      simp [dashRecAux, hrest, hstep]
    | succ k2 =>
      have hk2 : rest[k2]? = some (some m) := by simpa using hk
      have h0 : outcome start ≠ .notFound := by
        have := hothers 0 (by simp) (by omega)
        rwa [Nat.add_zero] at this
      have hrec := ih (start + 1) k2 m hk2 hm
        (by omega)
        (by
          have heq : start + 1 + k2 = start + (k2 + 1) := by omega
          rwa [heq])
        (fun j hj hne => by
          have := hothers (j + 1) (by simpa using Nat.succ_lt_succ hj)
            (by omega)
          have heq : start + (j + 1) = start + 1 + j := by omega
          rwa [heq] at this)
      simp [dashRecAux, hrec, dashSlotStep_id numTrips outcome start mid h0]

/-- When every tracked stop entry is unexpired and none of their edits
reports "message not found", the expired list is empty. -/
theorem stopExpiredAux_nil (nowUnix : Int) (outcome : Nat → EditOutcome) :
    ∀ smsgs : List (Nat × StopInfo),
      (∀ e ∈ smsgs,
        nowUnix < stopInfoExp nowUnix e.2 ∧ outcome e.1 ≠ .notFound) →
      stopExpiredAux nowUnix outcome smsgs = [] := by
  intro smsgs
  induction smsgs with
  | nil => intro _; rfl
  | cons e rest ih =>
    intro h
    obtain ⟨h1, h2⟩ := h e (List.mem_cons_self e rest)
    have hrest := ih (fun x hx => h x (List.mem_cons_of_mem _ hx))
    obtain ⟨mid, info⟩ := e
    simp only [stopExpiredAux]
    rw [if_neg (not_le.mpr h1)]
    cases hoc : outcome mid <;> first | exact hrest | exact absurd hoc h2

/-- Every message id on the expired list comes from a tracked entry that
either had a past expiry or whose edit reported "message not found". -/
theorem mem_stopExpiredAux (nowUnix : Int) (outcome : Nat → EditOutcome) :
    ∀ (smsgs : List (Nat × StopInfo)) (mid : Nat),
      mid ∈ stopExpiredAux nowUnix outcome smsgs →
      ∃ info, (mid, info) ∈ smsgs ∧
        (stopInfoExp nowUnix info ≤ nowUnix ∨ outcome mid = .notFound) := by
  intro smsgs
  induction smsgs with
  | nil => intro mid h; cases h
  | cons e rest ih =>
    intro mid h
    obtain ⟨k, info⟩ := e
    simp only [stopExpiredAux] at h
    by_cases hexp : nowUnix ≥ stopInfoExp nowUnix info
    · rw [if_pos hexp] at h
      rcases List.mem_cons.mp h with h1 | h1
      · subst h1
        exact ⟨info, List.mem_cons_self _ _, Or.inl hexp⟩
      · obtain ⟨i2, hi2, hc⟩ := ih mid h1
        exact ⟨i2, List.mem_cons_of_mem _ hi2, hc⟩
    · rw [if_neg hexp] at h
      cases hoc : outcome k with
      | notFound =>
        rw [hoc] at h
        rcases List.mem_cons.mp h with h1 | h1
        · subst h1
          exact ⟨info, List.mem_cons_self _ _, Or.inr hoc⟩
        · obtain ⟨i2, hi2, hc⟩ := ih mid h1
          exact ⟨i2, List.mem_cons_of_mem _ hi2, hc⟩
      | ok =>
        rw [hoc] at h
        obtain ⟨i2, hi2, hc⟩ := ih mid h
        exact ⟨i2, List.mem_cons_of_mem _ hi2, hc⟩
      | notModified =>
        rw [hoc] at h
        obtain ⟨i2, hi2, hc⟩ := ih mid h
        exact ⟨i2, List.mem_cons_of_mem _ hi2, hc⟩
      | otherBadRequest =>
        rw [hoc] at h
        obtain ⟨i2, hi2, hc⟩ := ih mid h
        exact ⟨i2, List.mem_cons_of_mem _ hi2, hc⟩
      | netError =>
        rw [hoc] at h
        obtain ⟨i2, hi2, hc⟩ := ih mid h
        exact ⟨i2, List.mem_cons_of_mem _ hi2, hc⟩

/-- Every tracked entry whose expiry has passed puts its message id on the
expired list, regardless of the edit oracle. -/
theorem mem_stopExpiredAux_of_expired (nowUnix : Int)
    (outcome : Nat → EditOutcome) :
    ∀ (smsgs : List (Nat × StopInfo)) (mid : Nat) (info : StopInfo),
      (mid, info) ∈ smsgs → stopInfoExp nowUnix info ≤ nowUnix →
      mid ∈ stopExpiredAux nowUnix outcome smsgs := by
  intro smsgs
  induction smsgs with
  | nil => intro mid info h; cases h
  | cons e rest ih =>
    intro mid info h hexp
    obtain ⟨k, i2⟩ := e
    rcases List.mem_cons.mp h with h1 | h1
    · rw [Prod.mk.injEq] at h1
      obtain ⟨rfl, rfl⟩ := h1
      simp only [stopExpiredAux]
      rw [if_pos hexp]
      exact List.mem_cons_self _ _
    · have hrec := ih mid info h1 hexp
      simp only [stopExpiredAux]
      split
      · exact List.mem_cons_of_mem _ hrec
      · cases hoc : outcome k <;>
          first
            | exact hrec
            | exact List.mem_cons_of_mem _ hrec

/-- In an association list with pairwise distinct keys, a key determines its
value. -/
theorem value_eq_of_nodup_keys :
    ∀ (l : List (Nat × StopInfo)), (l.map Prod.fst).Nodup →
      ∀ (mid : Nat) (a b : StopInfo),
        (mid, a) ∈ l → (mid, b) ∈ l → a = b := by
  intro l
  induction l with
  | nil => intro _ mid a b h; cases h
  | cons e rest ih =>
    intro hnd mid a b ha hb
    obtain ⟨k, v⟩ := e
    rw [List.map_cons, List.nodup_cons] at hnd
    obtain ⟨hk, hnd2⟩ := hnd
    rcases List.mem_cons.mp ha with h1 | h1 <;>
      rcases List.mem_cons.mp hb with h2 | h2
    · rw [Prod.mk.injEq] at h1 h2
      rw [h1.2, h2.2]
    · rw [Prod.mk.injEq] at h1
      have hmm : mid ∈ rest.map Prod.fst := List.mem_map_of_mem Prod.fst h2
      rw [h1.1] at hmm
      exact absurd hmm hk
    · rw [Prod.mk.injEq] at h2
      have hmm : mid ∈ rest.map Prod.fst := List.mem_map_of_mem Prod.fst h1
      rw [h2.1] at hmm
      exact absurd hmm hk
    · exact ih hnd2 mid a b h1 h2

/-- C4: when the per-user reconciliation step receives a "message not found"
edit failure for dashboard slot `i` (a live slot backed by a trip), and no
other edit fails that way nor any stop entry is expired, it sets exactly
slot `i` to null and persists the dashboard, leaving every other dashboard
slot, the stop-message map, and the user's trips unchanged. -/
theorem claim_C4 (u : UserData) (dashOutcome stopOutcome : Nat → EditOutcome)
    (nowUnix : Int) (i m : Nat)
    (hslot : u.state.dashboard_msgs[i]? = some (some m)) (hm : m ≠ 0)
    (htrip : i < u.trips.length)
    (hnf : dashOutcome i = .notFound)
    (hothers : ∀ j, j < u.state.dashboard_msgs.length → j ≠ i →
      dashOutcome j ≠ .notFound)
    (hstops : ∀ e ∈ u.state.stop_msgs,
      nowUnix < stopInfoExp nowUnix e.2 ∧ stopOutcome e.1 ≠ .notFound) :
    update_user u dashOutcome stopOutcome nowUnix =
      { trips := u.trips
        dashboard_msgs := u.state.dashboard_msgs.set i none
        stop_msgs := u.state.stop_msgs
        dashPersisted := true
        deletedMsgs := [] } := by
  have hdash := dashRecAux_set u.trips.length dashOutcome
    u.state.dashboard_msgs 0 i m hslot hm (by simpa using htrip)
    (by simpa using hnf) (fun j hj hne => by simpa using hothers j hj hne)
  have hexp := stopExpiredAux_nil nowUnix stopOutcome u.state.stop_msgs hstops
  simp only [update_user, dashReconcile, stopReconcile, hdash, hexp]
  simp

/-- Witness for C4: a user with two live dashboard slots and one healthy
stop message; slot 0's edit reports "message not found" and only that slot
is nulled. -/
theorem claim_C4_witness :
    update_user exampleUser2
      (fun j => if j = 0 then .notFound else .ok) (fun _ => .ok) 1000 =
      { trips := exampleUser2.trips
        dashboard_msgs := exampleUser2.state.dashboard_msgs.set 0 none
        stop_msgs := exampleUser2.state.stop_msgs
        dashPersisted := true
        deletedMsgs := [] } :=
  claim_C4 exampleUser2 (fun j => if j = 0 then .notFound else .ok)
    (fun _ => .ok) 1000 0 10 (by decide) (by decide) (by decide) (by decide)
    (fun j hj hne => by simp [hne]) (by decide)

/-- C5: every tracked live-stop entry whose expiry instant has passed at the
start of the reconciliation has its chat-message deletion attempted and its
entry removed, for every edit oracle (in particular regardless of whether
the fetch for its stop id succeeded or failed, since fetched data can only
influence the edit outcomes); after the step, no surviving tracked entry has
a past expiry. -/
theorem claim_C5 (u : UserData) (dashOutcome stopOutcome : Nat → EditOutcome)
    (nowUnix : Int) (mid : Nat) (info : StopInfo)
    (hmem : (mid, info) ∈ u.state.stop_msgs)
    (hexp : stopInfoExp nowUnix info ≤ nowUnix) :
    mid ∈ (update_user u dashOutcome stopOutcome nowUnix).deletedMsgs
  ∧ ∀ e ∈ (update_user u dashOutcome stopOutcome nowUnix).stop_msgs,
      nowUnix < stopInfoExp nowUnix e.2 := by
  constructor
  · exact mem_stopExpiredAux_of_expired nowUnix stopOutcome
      u.state.stop_msgs mid info hmem hexp
  · intro e he
    have h2 := List.mem_filter.mp he
    by_contra hlt
    push_neg at hlt
    have hin : e.1 ∈ stopExpiredAux nowUnix stopOutcome u.state.stop_msgs :=
      mem_stopExpiredAux_of_expired nowUnix stopOutcome u.state.stop_msgs
        e.1 e.2 (by simpa using h2.1) hlt
    have := h2.2
    simp at this
    exact this hin

/-- Witness for C5: a user whose single tracked stop message expired at 500;
at time 1000 its deletion is attempted and no expired entry survives. -/
theorem claim_C5_witness :
    (7 : Nat) ∈
      (update_user exampleUser3 (fun _ => .ok) (fun _ => .ok)
        1000).deletedMsgs
  ∧ ∀ e ∈ (update_user exampleUser3 (fun _ => .ok) (fun _ => .ok)
      1000).stop_msgs, (1000 : Int) < stopInfoExp 1000 e.2 :=
  claim_C5 exampleUser3 (fun _ => .ok) (fun _ => .ok) 1000 7
    (.obj (some "100") (some 500)) (by decide) (by decide)

/-- C9: a tracked stop entry stored in the legacy bare-string shape gets its
expiry recomputed every cycle as the current time plus the full 15-minute
TTL, so the expiry check `now_unix >= exp` is false at every cycle; such an
entry is never marked expired by the expiry check, and (as long as its edit
does not report "message not found", the only other teardown path) it
survives the reconciliation and its message is not deleted. -/
theorem claim_C9 (u : UserData) (dashOutcome stopOutcome : Nat → EditOutcome)
    (nowUnix : Int) (mid : Nat) (s : String)
    (hmem : (mid, StopInfo.legacy s) ∈ u.state.stop_msgs)
    (hnd : (u.state.stop_msgs.map Prod.fst).Nodup)
    (hok : stopOutcome mid ≠ .notFound) :
    stopInfoExp nowUnix (StopInfo.legacy s) = nowUnix + STOP_TTL_SECONDS
  ∧ ¬ (nowUnix ≥ stopInfoExp nowUnix (StopInfo.legacy s))
  ∧ (mid, StopInfo.legacy s) ∈
      (update_user u dashOutcome stopOutcome nowUnix).stop_msgs
  ∧ mid ∉ (update_user u dashOutcome stopOutcome nowUnix).deletedMsgs := by
  have hnotmem :
      mid ∉ stopExpiredAux nowUnix stopOutcome u.state.stop_msgs := by
    intro hin
    obtain ⟨info, hinfo, hc⟩ :=
      mem_stopExpiredAux nowUnix stopOutcome u.state.stop_msgs mid hin
    have hval : info = StopInfo.legacy s :=
      value_eq_of_nodup_keys u.state.stop_msgs hnd mid info
        (StopInfo.legacy s) hinfo hmem
    subst hval
    rcases hc with hc | hc
    · simp only [stopInfoExp, STOP_TTL_SECONDS] at hc
      omega
    · exact hok hc
  refine ⟨rfl, ?_, ?_, hnotmem⟩
  · simp only [stopInfoExp, STOP_TTL_SECONDS]
    omega
  · refine List.mem_filter.mpr ⟨hmem, ?_⟩
    simpa using hnotmem

/-- Witness for C9: the legacy-shaped entry for stop `"247"` survives a
reconciliation at time 1000 untouched. -/
theorem claim_C9_witness :
    stopInfoExp 1000 (StopInfo.legacy "247") = 1000 + STOP_TTL_SECONDS
  ∧ ¬ ((1000 : Int) ≥ stopInfoExp 1000 (StopInfo.legacy "247"))
  ∧ (1, StopInfo.legacy "247") ∈
      (update_user exampleUser (fun _ => .ok) (fun _ => .ok) 1000).stop_msgs
  ∧ (1 : Nat) ∉
      (update_user exampleUser (fun _ => .ok) (fun _ => .ok)
        1000).deletedMsgs :=
  claim_C9 exampleUser (fun _ => .ok) (fun _ => .ok) 1000 1 "247"
    (by decide) (by decide) (by decide)

end TramTram
